import Mathlib

/-!
Verification development for the `py_search_umls` client
(`src/query_umls.py`).  The Python module is shallowly embedded:

* JSON records returned by the UMLS service are modelled by
  `SearchResult`: an association list of scalar (string) fields plus an
  optional `semanticTypes` list (the one nested field the code inspects).
* The network is modelled as oracles supplied to each operation:
  `Env` (HTTP POST plus the HTML form-action extraction performed by
  `lxml`'s `fromstring` / `xpath` pipeline in `get_tgt`), a page oracle
  `Nat → PageResp` for the paginated `search_term` loop, and a per-CUI
  oracle `String → CuiResp` for `search_cui`.
* Uncaught Python exceptions are modelled as `Except` errors
  (`Err.indexError` for a list index out of range, `Err.keyError` for a
  missing dict key, `Err.valueError` for the pandas column-assignment
  failure in `get_df`, `AuthErr.authError` for the failure surfaced when
  the expected markup is absent in `get_tgt`).
* `pandas.DataFrame` construction in `get_df` is modelled concretely:
  the column list is the union of the records' field names (first
  appearance order, the `semanticTypes` column when any record carries
  it), and each row maps every column to the record's value or `NaN`.
-/

set_option autoImplicit false

/-- One entry of a record's `semanticTypes` list: a dict
`{name: ..., ui: ...}` (type label and TUI). -/
structure SemType where
  name : String
  ui : String
deriving DecidableEq, Repr

/-- A JSON record returned by the service: scalar string fields as an
association list, plus the optional nested `semanticTypes` list (the only
non-scalar field `get_df` inspects).  A `semanticTypes` key is represented
only by the dedicated slot, never inside `scalars`. -/
structure SearchResult where
  scalars : List (String × String)
  semanticTypes : Option (List SemType)
deriving DecidableEq, Repr

/-- A cell of the resulting table: a string value or pandas `NaN`
(for columns a given record lacks). -/
inductive Cell where
  | str (s : String)
  | nan
deriving DecidableEq, Repr

/-- A row of the flattened table: one cell per column, keyed by column
name. -/
abbrev Row := List (String × Cell)

/-- Uncaught Python exceptions of the search client. -/
inductive Err where
  | indexError
  | keyError
  | valueError
deriving DecidableEq, Repr

/-- The failure surfaced by `get_tgt` when the gateway response lacks the
expected `<form action=...>` markup (spec name: `AuthError`). -/
inductive AuthErr where
  | authError
deriving DecidableEq, Repr

/-- Dictionary access on an association list (first matching key). -/
def lookupS {α : Type} (k : String) : List (String × α) → Option α
  | [] => none
  | (k', v) :: rest => if k = k' then some v else lookupS k rest

/-- An HTTP response, as seen through `requests`: status code and body
text. -/
structure HttpResp where
  status : Nat
  text : String
deriving DecidableEq, Repr

/-- The network/parsing oracle for the `Authentication` class.
`post url data` is the response to `requests.post(url, data=data)`;
`formActions body` is the list of values `//form/@action` that
`lxml.html.fromstring(body).xpath('//form/@action')` extracts from the
body. -/
structure Env where
  post : String → List (String × String) → HttpResp
  formActions : String → List String

/-- Global `uri` of the identity gateway (module-level in the source). -/
def uri : String := "https://utslogin.nlm.nih.gov"

/-- Global `auth_endpoint` (module-level in the source). -/
def auth_endpoint : String := "/cas/v1/api-key"

/-- The `Authentication` object: API key and the fixed service name set
in `__init__`. -/
structure Authentication where
  apikey : String
  service : String
deriving DecidableEq, Repr

/-- `Authentication.__init__`: stores the key and the fixed service
identifier. -/
def mkAuthentication (apikey : String) : Authentication :=
  ⟨apikey, "http://umlsks.nlm.nih.gov"⟩

/-- `Authentication.get_tgt`: POST the API key to the auth endpoint and
return element 0 of the `//form/@action` extraction; an empty extraction
means the expected markup is absent and the call fails (uncaught
`IndexError`, the spec's `AuthError`). -/
def get_tgt (env : Env) (a : Authentication) : Except AuthErr String :=
  let r := env.post (uri ++ auth_endpoint) [("apikey", a.apikey)]
  match env.formActions r.text with
  | [] => Except.error AuthErr.authError
  | tgt :: _ => Except.ok tgt

/-- `Authentication.get_st`: POST the service name to the granting-ticket
URL and return the raw response body (`st = r.text; return st`).  The
source performs no status-code or empty-body check, so the call never
fails in the model. -/
def get_st (env : Env) (a : Authentication) (tgt : String) : Except AuthErr String :=
  let r := env.post tgt [("service", a.service)]
  Except.ok r.text

/-! ## Table flattening (`searchUMLS.get_df`) -/

/-- Append the keys `ks` to the column list `acc`, skipping keys already
present (pandas column-union order: first appearance). -/
def addKeys (acc : List String) (ks : List String) : List String :=
  ks.foldl (fun a k => if a.contains k then a else a ++ [k]) acc

/-- The union of the records' scalar field names, in first-appearance
order. -/
def scalarCols (recs : List SearchResult) : List String :=
  recs.foldl (fun acc r => addKeys acc (r.scalars.map Prod.fst)) []

/-- The columns of `pd.DataFrame(json_data)`: the scalar field names,
plus a `semanticTypes` column when any record carries that field. -/
def dfColumns (recs : List SearchResult) : List String :=
  let sc := scalarCols recs
  if recs.any (fun r => r.semanticTypes.isSome) then sc ++ ["semanticTypes"] else sc

/-- The scalar part of a record's table row: one cell per column, the
record's value when present, `NaN` otherwise. -/
def scalarRow (cols : List String) (r : SearchResult) : Row :=
  cols.map (fun c =>
    (c, match lookupS c r.scalars with
        | some v => Cell.str v
        | none => Cell.nan))

/-- `df['semanticTypes'].str[0]` for one record: the first entry of its
`semanticTypes` list when the list is nonempty, `NaN` (here `none`)
otherwise. -/
def semStr0 (r : SearchResult) : Option SemType :=
  match r.semanticTypes with
  | some (st :: _) => some st
  | _ => none

/-- `.str[0].apply(pd.Series)` across all records: succeeds (with the
projected `{name, ui}` dict per row) only when every row yields a dict;
any `NaN` row makes the expanded frame's width differ from the two
assigned keys, so the assignment raises (`Err.valueError`). -/
def projSts : List SearchResult → Option (List SemType)
  | [] => some []
  | r :: rs =>
    match semStr0 r, projSts rs with
    | some st, some sts => some (st :: sts)
    | _, _ => none

/-- The columns surviving `df.drop('semanticTypes', axis=1)`. -/
def projCols (recs : List SearchResult) : List String :=
  (dfColumns recs).filter (fun c => c != "semanticTypes")

/-- `searchUMLS.get_df`: build the DataFrame; when a `semanticTypes`
column is present, expand element 0 of each record's list into the two
new columns `semantic_type` and `TUI` and drop the `semanticTypes`
column; otherwise pass the frame through unchanged. -/
def get_df (recs : List SearchResult) : Except Err (List String × List Row) :=
  if (dfColumns recs).contains "semanticTypes" then
    match projSts recs with
    | some sts =>
      Except.ok (projCols recs ++ ["semantic_type", "TUI"],
        (recs.zip sts).map (fun rs =>
          scalarRow (projCols recs) rs.1 ++
            [("semantic_type", Cell.str rs.2.name), ("TUI", Cell.str rs.2.ui)]))
    | none => Except.error Err.valueError
  else
    Except.ok (dfColumns recs, recs.map (scalarRow (dfColumns recs)))

/-! ## Term search (`searchUMLS.search_term`) -/

/-- The value of `items['result']` for one page of the term-search
endpoint: a JSON object carrying a `results` array, or any other JSON
shape (the upstream end-of-pagination signal). -/
inductive PageResp where
  | obj (results : List SearchResult)
  | other
deriving Repr

/-- The `while True` page loop of `search_term`, one recursive step per
page: fetch page `page + 1`; a non-object payload breaks the loop; an
object payload has its first result's `ui` compared against the sentinel
`NONE` (an empty `results` list raises `IndexError`, a result without a
`ui` key raises `KeyError`); otherwise the page's results are appended
and the loop breaks once the accumulated count reaches `n`. -/
def searchLoop (pages : Nat → PageResp) (n : Nat) (page : Nat)
    (acc : List SearchResult) : Except Err (List SearchResult) :=
  match pages (page + 1) with
  | PageResp.other => Except.ok acc
  | PageResp.obj [] => Except.error Err.indexError
  | PageResp.obj (r0 :: rest) =>
    match lookupS "ui" r0.scalars with
    | none => Except.error Err.keyError
    | some v =>
      if v = "NONE" then Except.ok acc
      else if _h : n ≤ (acc ++ r0 :: rest).length then Except.ok (acc ++ r0 :: rest)
      else searchLoop pages n (page + 1) (acc ++ r0 :: rest)
termination_by n - acc.length
decreasing_by
  simp only [List.length_append, List.length_cons, not_le] at _h ⊢
  omega

/-- `searchUMLS.search_term` with `as_df=False`: run the page loop from
page 0 with an empty accumulator, then truncate to the first
`num_results` records (`results[0:n]`). -/
def search_term (pages : Nat → PageResp) (num_results : Nat) :
    Except Err (List SearchResult) :=
  match searchLoop pages num_results 0 [] with
  | Except.ok results => Except.ok (results.take num_results)
  | Except.error e => Except.error e

/-- `searchUMLS.search_term` with `as_df=True`: the record list fed
through `get_df`. -/
def search_term_df (pages : Nat → PageResp) (num_results : Nat) :
    Except Err (List String × List Row) :=
  match search_term pages num_results with
  | Except.ok results => get_df results
  | Except.error e => Except.error e

/-- A page that lets the loop continue accumulating: an object payload
whose first result has a `ui` field different from the sentinel `NONE`.
Returns that page's results. -/
def contResults (pages : Nat → PageResp) (p : Nat) : Option (List SearchResult) :=
  match pages p with
  | PageResp.obj (r0 :: rest) =>
    (match lookupS "ui" r0.scalars with
     | some v => if v = "NONE" then none else some (r0 :: rest)
     | none => none)
  | _ => none

/-- The results supplied by the `m` pages following page `page`, stopping
contributions at non-continuing pages. -/
def suppliedFrom (pages : Nat → PageResp) (page : Nat) : Nat → List SearchResult
  | 0 => []
  | m + 1 => (contResults pages (page + 1)).getD [] ++ suppliedFrom pages (page + 1) m

/-- "At least `k` matching rows exist upstream": some prefix of pages
`1..m` consists only of continuing pages and supplies at least `k`
results before pagination ends. -/
def upstreamAtLeast (pages : Nat → PageResp) (k : Nat) : Prop :=
  ∃ m, (∀ p, 1 ≤ p → p ≤ m → (contResults pages p).isSome = true) ∧
    k ≤ (suppliedFrom pages 0 m).length

/-! ## Concept lookup (`searchUMLS.search_cui`) -/

/-- The parsed JSON body for one CUI lookup: an object carrying an
`error` field, or an object carrying the `result` record. -/
inductive CuiResp where
  | errObj
  | resObj (r : SearchResult)
deriving Repr

/-- `true` when the response resolves the identifier. -/
def CuiResp.isRes : CuiResp → Bool
  | CuiResp.errObj => false
  | CuiResp.resObj _ => true

/-- The record of a resolving response. -/
def cuiPick (resp : String → CuiResp) (c : String) : Option SearchResult :=
  match resp c with
  | CuiResp.errObj => none
  | CuiResp.resObj r => some r

/-- Authentication / request events emitted by `search_cui`, in program
order: a `get_tgt` call, a `get_st` call, or the GET for one identifier. -/
inductive Ev where
  | tgt
  | st
  | get (cui : String)
deriving DecidableEq, Repr

/-- The `for cui in cui_lst` loop of `search_cui`: per identifier, mint a
fresh granting ticket and a fresh service ticket, issue the lookup, skip
the identifier when the body carries an `error` field, otherwise append
`items['result']`.  Returns the event trace and the accumulated
records. -/
def search_cui_core (resp : String → CuiResp) : List String → List Ev × List SearchResult
  | [] => ([], [])
  | c :: rest =>
    let tail := search_cui_core resp rest
    match resp c with
    | CuiResp.errObj => (Ev.tgt :: Ev.st :: Ev.get c :: tail.1, tail.2)
    | CuiResp.resObj r => (Ev.tgt :: Ev.st :: Ev.get c :: tail.1, r :: tail.2)

/-- `searchUMLS.search_cui` with `as_df=False`: the accumulated record
list. -/
def search_cui (resp : String → CuiResp) (cui_lst : List String) : List SearchResult :=
  (search_cui_core resp cui_lst).2

/-- `searchUMLS.search_cui` with `as_df=True`. -/
def search_cui_df (resp : String → CuiResp) (cui_lst : List String) :
    Except Err (List String × List Row) :=
  get_df (search_cui resp cui_lst)

/-- Record well-formedness for the flattening theorems: no scalar field
reuses a name the projection step owns (`semanticTypes` lives only in its
dedicated slot, and the two assigned columns are new). -/
def wfRec (r : SearchResult) : Prop :=
  ∀ kv ∈ r.scalars, kv.1 ≠ "semanticTypes" ∧ kv.1 ≠ "semantic_type" ∧ kv.1 ≠ "TUI"

instance (r : SearchResult) : Decidable (wfRec r) := by
  unfold wfRec; infer_instance

/-! ## Concrete inputs used by the witnesses -/

/-- A record with a nonempty `semanticTypes` list. -/
def recHand : SearchResult :=
  ⟨[("ui", "C0018563"), ("name", "Hand")], some [⟨"Body Part", "T023"⟩]⟩

/-- A batch containing a record with an empty `semanticTypes` list. -/
def recsEmptySem : List SearchResult := [⟨[("ui", "C0000001")], some []⟩]

/-- A batch of plain records without `semanticTypes`. -/
def recsPlain : List SearchResult :=
  [⟨[("ui", "C0018563"), ("name", "Hand"), ("rootSource", "MTH")], none⟩]

/-- A CUI oracle that resolves everything except the identifier `x`. -/
def respSkip : String → CuiResp := fun c =>
  if c = "x" then CuiResp.errObj
  else CuiResp.resObj ⟨[("ui", c), ("name", "N")], none⟩

/-- Two valid identifiers with an invalid one in between. -/
def cuisSkip : List String := ["C0009044", "x", "C2097260"]

/-- An auth environment whose gateway response carries no form markup. -/
def envNoForm : Env := ⟨fun _ _ => ⟨200, "<html></html>"⟩, fun _ => []⟩

/-- An auth environment answering every POST with status 404 and an empty
body. -/
def env404 : Env := ⟨fun _ _ => ⟨404, ""⟩, fun _ => []⟩

/-- Three plain result records. -/
def recA : SearchResult := ⟨[("ui", "C0001"), ("name", "A")], none⟩

/-- Second plain record. -/
def recB : SearchResult := ⟨[("ui", "C0002"), ("name", "B")], none⟩

/-- Third plain record. -/
def recC : SearchResult := ⟨[("ui", "C0003"), ("name", "C")], none⟩

/-- A page oracle: page 1 carries three results, pagination then ends. -/
def pagesThree : Nat → PageResp := fun p =>
  if p = 1 then PageResp.obj [recA, recB, recC] else PageResp.other

/-- A page oracle whose every page is the `NONE` sentinel. -/
def pagesSentinel : Nat → PageResp := fun _ =>
  PageResp.obj [⟨[("ui", "NONE")], none⟩]

/-- A page oracle whose every page is an object with an empty `results`
list. -/
def pagesEmptyResults : Nat → PageResp := fun _ => PageResp.obj []

/-! ## Association-list and column lemmas -/

theorem lookupS_append {α : Type} (k : String) (l1 l2 : List (String × α)) :
    lookupS k (l1 ++ l2) =
      match lookupS k l1 with
      | some v => some v
      | none => lookupS k l2 := by
  induction l1 with
  | nil => rfl
  | cons kv rest ih =>
    obtain ⟨k', v⟩ := kv
    by_cases h : k = k' <;> simp [lookupS, h, ih]

theorem lookupS_keyed (f : String → Cell) (cols : List String) (k : String) :
    lookupS k (cols.map (fun c => (c, f c))) =
      if k ∈ cols then some (f k) else none := by
  induction cols with
  | nil => simp [lookupS]
  | cons c cs ih =>
    by_cases h : k = c
    · subst h; simp [lookupS]
    · simp [lookupS, h, ih, List.mem_cons]

theorem lookupS_scalarRow (cols : List String) (r : SearchResult) (k : String) :
    lookupS k (scalarRow cols r) =
      if k ∈ cols then
        some (match lookupS k r.scalars with
              | some v => Cell.str v
              | none => Cell.nan)
      else none :=
  lookupS_keyed (fun c =>
    match lookupS c r.scalars with
    | some v => Cell.str v
    | none => Cell.nan) cols k

theorem lookupS_mem_keys {α : Type} {k : String} {l : List (String × α)} {v : α}
    (h : lookupS k l = some v) : k ∈ l.map Prod.fst := by
  induction l with
  | nil => cases h
  | cons kv rest ih =>
    obtain ⟨k', w⟩ := kv
    by_cases hk : k = k'
    · simp [hk]
    · simp only [lookupS, if_neg hk] at h
      simp [ih h]

theorem mem_addKeys (k : String) (ks : List String) :
    ∀ acc, k ∈ addKeys acc ks ↔ k ∈ acc ∨ k ∈ ks := by
  induction ks with
  | nil => intro acc; simp [addKeys]
  | cons k0 ks ih =>
    intro acc
    have hstep : addKeys acc (k0 :: ks) =
        addKeys (if acc.contains k0 then acc else acc ++ [k0]) ks := rfl
    rw [hstep, ih]
    by_cases h : acc.contains k0
    · have hk0 : k0 ∈ acc := by simpa using h
      rw [if_pos h]
      constructor
      · rintro (ha | hk); exact Or.inl ha; exact Or.inr (List.mem_cons_of_mem _ hk)
      · rintro (ha | hk)
        · exact Or.inl ha
        · rcases List.mem_cons.mp hk with rfl | hk
          · exact Or.inl hk0
          · exact Or.inr hk
    · rw [if_neg h]
      simp [List.mem_cons, or_assoc]

theorem mem_scalarCols_aux (k : String) (recs : List SearchResult) :
    ∀ acc, k ∈ recs.foldl (fun a r => addKeys a (r.scalars.map Prod.fst)) acc ↔
      k ∈ acc ∨ ∃ r ∈ recs, k ∈ r.scalars.map Prod.fst := by
  induction recs with
  | nil => intro acc; simp
  | cons r rest ih =>
    intro acc
    have hstep : (r :: rest).foldl (fun a r => addKeys a (r.scalars.map Prod.fst)) acc =
        rest.foldl (fun a r => addKeys a (r.scalars.map Prod.fst))
          (addKeys acc (r.scalars.map Prod.fst)) := rfl
    rw [hstep, ih, mem_addKeys]
    constructor
    · rintro ((ha | hr) | ⟨r', hr', hk⟩)
      · exact Or.inl ha
      · exact Or.inr ⟨r, by simp, hr⟩
      · exact Or.inr ⟨r', by simp [hr'], hk⟩
    · rintro (ha | ⟨r', hr', hk⟩)
      · exact Or.inl (Or.inl ha)
      · rcases List.mem_cons.mp hr' with rfl | hr'
        · exact Or.inl (Or.inr hk)
        · exact Or.inr ⟨r', hr', hk⟩

theorem mem_scalarCols (k : String) (recs : List SearchResult) :
    k ∈ scalarCols recs ↔ ∃ r ∈ recs, k ∈ r.scalars.map Prod.fst := by
  have := mem_scalarCols_aux k recs []
  simpa [scalarCols] using this

theorem mem_dfColumns {k : String} {recs : List SearchResult}
    (h : k ∈ dfColumns recs) : k ∈ scalarCols recs ∨ k = "semanticTypes" := by
  unfold dfColumns at h
  by_cases hs : recs.any (fun r => r.semanticTypes.isSome)
  · rw [if_pos hs] at h
    rcases List.mem_append.mp h with h1 | h1
    · exact Or.inl h1
    · exact Or.inr (by simpa using h1)
  · rw [if_neg hs] at h
    exact Or.inl h

/-! ## Lemmas about the flattening step -/

theorem projSts_none {recs : List SearchResult} {r : SearchResult}
    (hr : r ∈ recs) (h : semStr0 r = none) : projSts recs = none := by
  induction recs with
  | nil => cases hr
  | cons a l ih =>
    rcases List.mem_cons.mp hr with rfl | h1
    · simp [projSts, h]
    · cases ha : semStr0 a <;> simp [projSts, ha, ih h1]

theorem projSts_forall₂ {recs : List SearchResult} {sts : List SemType}
    (h : projSts recs = some sts) :
    List.Forall₂ (fun r st => semStr0 r = some st) recs sts := by
  induction recs generalizing sts with
  | nil =>
    simp only [projSts] at h
    injection h with h2
    subst h2
    exact List.Forall₂.nil
  | cons a l ih =>
    cases ha : semStr0 a with
    | none => rw [projSts, ha] at h; cases h
    | some st =>
      cases hl : projSts l with
      | none => rw [projSts, ha, hl] at h; cases h
      | some sts' =>
        rw [projSts, ha, hl] at h
        injection h with h2
        subst h2
        exact List.Forall₂.cons ha (ih hl)

theorem forall₂_zip_map {α β γ : Type} {R : α → β → Prop} {P : α → γ → Prop}
    (f : α × β → γ) {l1 : List α} {l2 : List β}
    (h : List.Forall₂ R l1 l2) (hP : ∀ a b, R a b → P a (f (a, b))) :
    List.Forall₂ P l1 ((l1.zip l2).map f) := by
  induction h with
  | nil => exact List.Forall₂.nil
  | @cons a b l1' l2' hab _ ih =>
    exact List.Forall₂.cons (hP a b hab) ih

theorem forall₂_map_self {α γ : Type} {P : α → γ → Prop} (f : α → γ) (l : List α)
    (h : ∀ a ∈ l, P a (f a)) : List.Forall₂ P l (l.map f) := by
  induction l with
  | nil => exact List.Forall₂.nil
  | cons a t ih =>
    exact List.Forall₂.cons (h a (by simp)) (ih fun x hx => h x (by simp [hx]))

theorem get_df_length {recs : List SearchResult} {cols : List String} {rows : List Row}
    (h : get_df recs = Except.ok (cols, rows)) : rows.length = recs.length := by
  unfold get_df at h
  split at h
  · cases hp : projSts recs with
    | none => rw [hp] at h; cases h
    | some sts =>
      rw [hp] at h
      injection h with h2
      injection h2 with h3 h4
      subst h4
      have hlen : recs.length = sts.length := (projSts_forall₂ hp).length_eq
      simp [hlen]
  · injection h with h2
    injection h2 with h3 h4
    subst h4
    simp

/-! ## Flattening claims -/

/-- Claim C9: flattening a collection in which some record has an empty
`semanticTypes` list raises a failure (the pandas two-column assignment
fails) rather than silently defaulting the projected columns. -/
theorem get_df_empty_semtypes_fails (recs : List SearchResult) (r : SearchResult)
    (hr : r ∈ recs) (hempty : r.semanticTypes = some []) :
    get_df recs = Except.error Err.valueError := by
  have hany : recs.any (fun r => r.semanticTypes.isSome) = true :=
    List.any_eq_true.mpr ⟨r, hr, by simp [hempty]⟩
  have hmem : "semanticTypes" ∈ dfColumns recs := by
    simp [dfColumns, hany]
  have hnone : projSts recs = none := projSts_none hr (by simp [semStr0, hempty])
  simp [get_df, hmem, hnone]

/-- Witness for C9: a one-record batch with an empty `semanticTypes`
list makes `get_df` fail. -/
theorem get_df_empty_semtypes_fails_witness :
    get_df recsEmptySem = Except.error Err.valueError :=
  get_df_empty_semtypes_fails recsEmptySem ⟨[("ui", "C0000001")], some []⟩
    (by simp [recsEmptySem]) rfl

/-- Claim C4: for every record carrying a nonempty `semanticTypes` list,
its row of the flattened table has `semantic_type` set to element 0's
label, `TUI` set to element 0's identifier, and no `semanticTypes`
field. -/
theorem get_df_flatten_first_semtype (recs : List SearchResult)
    (cols : List String) (rows : List Row)
    (hwf : ∀ r ∈ recs, wfRec r)
    (h : get_df recs = Except.ok (cols, rows)) :
    List.Forall₂ (fun r row => ∀ st rest,
        r.semanticTypes = some (st :: rest) →
        lookupS "semantic_type" row = some (Cell.str st.name) ∧
        lookupS "TUI" row = some (Cell.str st.ui) ∧
        lookupS "semanticTypes" row = none)
      recs rows := by
  have hnotin : ∀ k, k ≠ "semanticTypes" →
      (∀ r ∈ recs, ∀ kv ∈ r.scalars, kv.1 ≠ k) → k ∉ projCols recs := by
    intro k hk hkeys hmem
    have h1 : k ∈ dfColumns recs := (List.mem_filter.mp hmem).1
    rcases mem_dfColumns h1 with h2 | h2
    · obtain ⟨r, hr, hkey⟩ := (mem_scalarCols k recs).mp h2
      obtain ⟨kv, hkv, hkeq⟩ := List.mem_map.mp hkey
      exact hkeys r hr kv hkv hkeq
    · exact hk h2
  have hst : "semantic_type" ∉ projCols recs :=
    hnotin _ (by decide) (fun r hr kv hkv => ((hwf r hr) kv hkv).2.1)
  have htui : "TUI" ∉ projCols recs :=
    hnotin _ (by decide) (fun r hr kv hkv => ((hwf r hr) kv hkv).2.2)
  have hsem : "semanticTypes" ∉ projCols recs := by
    intro hmem
    have := (List.mem_filter.mp hmem).2
    simp at this
  unfold get_df at h
  split at h
  · cases hp : projSts recs with
    | none => rw [hp] at h; cases h
    | some sts =>
      rw [hp] at h
      injection h with h2
      injection h2 with h3 h4
      subst h4
      refine forall₂_zip_map _ (projSts_forall₂ hp) ?_
      intro r st' hr st rest hsem'
      have hst' : st' = st := by
        rw [semStr0, hsem'] at hr
        injection hr with h5
        exact h5.symm
      subst hst'
      refine ⟨?_, ?_, ?_⟩
      · rw [lookupS_append, lookupS_scalarRow, if_neg hst]
        simp [lookupS]
      · rw [lookupS_append, lookupS_scalarRow, if_neg htui]
        simp [lookupS]
      · rw [lookupS_append, lookupS_scalarRow, if_neg hsem]
        simp [lookupS]
  · injection h with h2
    injection h2 with h3 h4
    subst h4
    refine forall₂_map_self _ recs ?_
    intro r hr st rest hsem'
    exfalso
    have hany : recs.any (fun r => r.semanticTypes.isSome) = true :=
      List.any_eq_true.mpr ⟨r, hr, by simp [hsem']⟩
    have : (dfColumns recs).contains "semanticTypes" = true := by
      simp [dfColumns, hany]
    simp_all

/-- Witness for C4: the record `recHand` (semantic type `Body Part`,
TUI `T023`) flattens to a row with those two scalar fields and no
`semanticTypes` field. -/
theorem get_df_flatten_first_semtype_witness :
    lookupS "semantic_type"
        [("ui", Cell.str "C0018563"), ("name", Cell.str "Hand"),
         ("semantic_type", Cell.str "Body Part"), ("TUI", Cell.str "T023")] =
      some (Cell.str "Body Part") ∧
    lookupS "TUI"
        [("ui", Cell.str "C0018563"), ("name", Cell.str "Hand"),
         ("semantic_type", Cell.str "Body Part"), ("TUI", Cell.str "T023")] =
      some (Cell.str "T023") ∧
    lookupS "semanticTypes"
        [("ui", Cell.str "C0018563"), ("name", Cell.str "Hand"),
         ("semantic_type", Cell.str "Body Part"), ("TUI", Cell.str "T023")] =
      none := by
  have h := get_df_flatten_first_semtype [recHand]
    ["ui", "name", "semantic_type", "TUI"]
    [[("ui", Cell.str "C0018563"), ("name", Cell.str "Hand"),
      ("semantic_type", Cell.str "Body Part"), ("TUI", Cell.str "T023")]]
    (by decide) rfl
  cases h with
  | cons hP _ => exact hP ⟨"Body Part", "T023"⟩ [] rfl

/-- Claim C8: when no record carries a `semanticTypes` field, the table
conversion passes every record through with the same fields and values
(row cells are exactly the record's scalar fields, `NaN` elsewhere). -/
theorem get_df_passthrough (recs : List SearchResult)
    (h : ∀ r ∈ recs, r.semanticTypes = none ∧ ∀ kv ∈ r.scalars, kv.1 ≠ "semanticTypes") :
    ∃ cols rows, get_df recs = Except.ok (cols, rows) ∧
      List.Forall₂ (fun r row => ∀ k v,
          lookupS k row = some (Cell.str v) ↔ lookupS k r.scalars = some v)
        recs rows := by
  have hany : recs.any (fun r => r.semanticTypes.isSome) = false := by
    rw [List.any_eq_false]
    intro r hr
    simp [(h r hr).1]
  have hcols : dfColumns recs = scalarCols recs := by
    simp [dfColumns, hany]
  have hnosem : "semanticTypes" ∉ dfColumns recs := by
    rw [hcols]
    intro hmem
    obtain ⟨r, hr, hkey⟩ := (mem_scalarCols _ recs).mp hmem
    obtain ⟨kv, hkv, hkeq⟩ := List.mem_map.mp hkey
    exact (h r hr).2 kv hkv hkeq
  have hcontains : (dfColumns recs).contains "semanticTypes" = false := by
    simpa using hnosem
  refine ⟨dfColumns recs, recs.map (scalarRow (dfColumns recs)), ?_, ?_⟩
  · rw [get_df, hcontains]
    simp
  · refine forall₂_map_self _ recs ?_
    intro r hr k v
    rw [lookupS_scalarRow]
    by_cases hk : k ∈ dfColumns recs
    · rw [if_pos hk]
      cases hlk : lookupS k r.scalars with
      | none => simp
      | some w => simp
    · rw [if_neg hk]
      constructor
      · intro hfalse; cases hfalse
      · intro hlk
        exfalso
        apply hk
        rw [hcols]
        exact (mem_scalarCols k recs).mpr ⟨r, hr, lookupS_mem_keys hlk⟩

/-- Witness for C8: a plain record's `name` field survives the table
conversion unchanged. -/
theorem get_df_passthrough_witness :
    lookupS "name" (scalarRow (dfColumns recsPlain) ⟨[("ui", "C0018563"),
      ("name", "Hand"), ("rootSource", "MTH")], none⟩) = some (Cell.str "Hand") := by
  obtain ⟨cols, rows, heq, hfa⟩ := get_df_passthrough recsPlain (by decide)
  have hcomp : get_df recsPlain =
      Except.ok (dfColumns recsPlain,
        [scalarRow (dfColumns recsPlain) ⟨[("ui", "C0018563"),
          ("name", "Hand"), ("rootSource", "MTH")], none⟩]) := rfl
  rw [hcomp] at heq
  injection heq with h2
  injection h2 with h3 h4
  subst h4
  cases hfa with
  | cons hP _ => exact (hP "name" "Hand").mpr rfl

/-! ## Authentication claims -/

/-- Claim C5: `get_tgt` fails (with the spec's `AuthError`) exactly when
the gateway response body yields no `//form/@action` markup; when the
markup is present it returns the first form's action URL as the granting
ticket. -/
theorem get_tgt_spec (env : Env) (a : Authentication) :
    (env.formActions (env.post (uri ++ auth_endpoint) [("apikey", a.apikey)]).text = [] →
      get_tgt env a = Except.error AuthErr.authError) ∧
    (∀ tgt rest,
      env.formActions (env.post (uri ++ auth_endpoint) [("apikey", a.apikey)]).text =
          tgt :: rest →
      get_tgt env a = Except.ok tgt) := by
  constructor
  · intro h
    simp [get_tgt, h]
  · intro tgt rest h
    simp [get_tgt, h]

/-- Witness for C5: a gateway answering with form-free markup (e.g. for
an invalid key) makes `get_tgt` fail. -/
theorem get_tgt_spec_witness :
    get_tgt envNoForm (mkAuthentication "bad-key") = Except.error AuthErr.authError :=
  (get_tgt_spec envNoForm (mkAuthentication "bad-key")).1 rfl

/-- Counterexample to C6 as stated: a POST answered with status 404 and
an empty body still makes `get_st` return the (empty) body as the
ticket, instead of failing with `AuthError`. -/
theorem get_st_no_error_check :
    (env404.post "https://tgt.example" [("service", (mkAuthentication "k").service)]).status
        = 404 ∧
    (env404.post "https://tgt.example" [("service", (mkAuthentication "k").service)]).text
        = "" ∧
    get_st env404 (mkAuthentication "k") "https://tgt.example" = Except.ok "" :=
  ⟨rfl, rfl, rfl⟩

/-- Claim C6 (amended): `get_st` returns the raw response body as the
service ticket unconditionally — it inspects neither the HTTP status nor
emptiness of the body, so two environments whose bodies agree give the
same ticket and the call never fails. -/
theorem get_st_returns_raw_body (env env2 : Env) (a : Authentication) (tgt : String)
    (h : (env.post tgt [("service", a.service)]).text =
      (env2.post tgt [("service", a.service)]).text) :
    get_st env a tgt = Except.ok (env.post tgt [("service", a.service)]).text ∧
    get_st env a tgt = get_st env2 a tgt := by
  refine ⟨rfl, ?_⟩
  simp [get_st, h]

/-- Witness for C6 (amended): at the 404/empty-body environment the call
still returns the body. -/
theorem get_st_returns_raw_body_witness :
    get_st env404 (mkAuthentication "k") "https://tgt.example" = Except.ok "" :=
  (get_st_returns_raw_body env404 env404 (mkAuthentication "k") "https://tgt.example" rfl).1

/-! ## Concept-lookup claims -/

theorem search_cui_core_snd (resp : String → CuiResp) (cuis : List String) :
    (search_cui_core resp cuis).2 = cuis.filterMap (cuiPick resp) := by
  induction cuis with
  | nil => rfl
  | cons c rest ih =>
    cases hc : resp c <;>
      simp [search_cui_core, cuiPick, hc, List.filterMap_cons, ih]

theorem search_cui_core_fst (resp : String → CuiResp) (cuis : List String) :
    (search_cui_core resp cuis).1 =
      (cuis.map (fun c => [Ev.tgt, Ev.st, Ev.get c])).flatten := by
  induction cuis with
  | nil => rfl
  | cons c rest ih =>
    cases hc : resp c <;> simp [search_cui_core, hc, ih]

theorem search_cui_length_countP (resp : String → CuiResp) (cuis : List String) :
    (search_cui resp cuis).length = cuis.countP (fun c => (resp c).isRes) := by
  rw [search_cui, search_cui_core_snd]
  induction cuis with
  | nil => rfl
  | cons c rest ih =>
    cases hc : resp c <;>
      simp [List.filterMap_cons, List.countP_cons, cuiPick, CuiResp.isRes, hc, ih]

/-- Claim C3: a concept-identifier batch skips every identifier whose
response is an error payload and keeps all the others, so the returned
collection (and its table) has exactly one row per resolving identifier;
no per-identifier error aborts the batch. -/
theorem search_cui_skips_errors (resp : String → CuiResp) (cuis : List String) :
    (search_cui resp cuis).length = cuis.countP (fun c => (resp c).isRes) ∧
    ∀ cols rows, search_cui_df resp cuis = Except.ok (cols, rows) →
      rows.length = cuis.countP (fun c => (resp c).isRes) := by
  refine ⟨search_cui_length_countP resp cuis, ?_⟩
  intro cols rows h
  rw [search_cui_df] at h
  rw [get_df_length h]
  exact search_cui_length_countP resp cuis

/-- Witness for C3: two valid identifiers plus the invalid `x` give a
two-row table. -/
theorem search_cui_skips_errors_witness :
    (2 : Nat) = cuisSkip.countP (fun c => (respSkip c).isRes) := by
  have h := (search_cui_skips_errors respSkip cuisSkip).2
    ["ui", "name"]
    [[("ui", Cell.str "C0009044"), ("name", Cell.str "N")],
     [("ui", Cell.str "C2097260"), ("name", Cell.str "N")]]
    rfl
  simpa using h.symm

/-- Claim C7: `search_cui` yields exactly the records of the resolving
identifiers, in input order with duplicates processed independently
(`filterMap` over the input sequence), and its event trace mints one
fresh granting ticket and one fresh service ticket before the lookup of
each identifier. -/
theorem search_cui_order_and_tickets (resp : String → CuiResp) (cuis : List String) :
    search_cui resp cuis = cuis.filterMap (cuiPick resp) ∧
    (search_cui_core resp cuis).1 =
      (cuis.map (fun c => [Ev.tgt, Ev.st, Ev.get c])).flatten :=
  ⟨search_cui_core_snd resp cuis, search_cui_core_fst resp cuis⟩

/-! ## Page-loop lemmas -/

theorem searchLoop_empty {pages : Nat → PageResp} {page : Nat}
    (n : Nat) (acc : List SearchResult)
    (hp : pages (page + 1) = PageResp.obj []) :
    searchLoop pages n page acc = Except.error Err.indexError := by
  rw [searchLoop, hp]

theorem searchLoop_sentinel {pages : Nat → PageResp} {page : Nat}
    {r0 : SearchResult} {rest : List SearchResult}
    (n : Nat) (acc : List SearchResult)
    (hp : pages (page + 1) = PageResp.obj (r0 :: rest))
    (hu : lookupS "ui" r0.scalars = some "NONE") :
    searchLoop pages n page acc = Except.ok acc := by
  rw [searchLoop, hp]
  simp [hu]

theorem contResults_some_elim {pages : Nat → PageResp} {p : Nat}
    {resl : List SearchResult} (h : contResults pages p = some resl) :
    ∃ r0 rest v, pages p = PageResp.obj (r0 :: rest) ∧ resl = r0 :: rest ∧
      lookupS "ui" r0.scalars = some v ∧ v ≠ "NONE" := by
  unfold contResults at h
  cases hp : pages p with
  | other => rw [hp] at h; simp at h
  | obj results =>
    rw [hp] at h
    cases results with
    | nil => simp at h
    | cons r0 rest =>
      cases hu : lookupS "ui" r0.scalars with
      | none => simp [hu] at h
      | some v =>
        by_cases hv : v = "NONE"
        · simp [hu, hv] at h
        · simp [hu, hv] at h
          exact ⟨r0, rest, v, rfl, h.symm, hu, hv⟩

theorem contResults_none_cases {pages : Nat → PageResp} {p : Nat}
    (h : contResults pages p = none) :
    pages p = PageResp.other ∨ pages p = PageResp.obj [] ∨
    (∃ r0 rest, pages p = PageResp.obj (r0 :: rest) ∧ lookupS "ui" r0.scalars = none) ∨
    (∃ r0 rest, pages p = PageResp.obj (r0 :: rest) ∧
      lookupS "ui" r0.scalars = some "NONE") := by
  unfold contResults at h
  cases hp : pages p with
  | other => exact Or.inl rfl
  | obj results =>
    rw [hp] at h
    cases results with
    | nil => exact Or.inr (Or.inl rfl)
    | cons r0 rest =>
      cases hu : lookupS "ui" r0.scalars with
      | none => exact Or.inr (Or.inr (Or.inl ⟨r0, rest, rfl, hu⟩))
      | some v =>
        by_cases hv : v = "NONE"
        · subst hv
          exact Or.inr (Or.inr (Or.inr ⟨r0, rest, rfl, hu⟩))
        · simp [hu, hv] at h

theorem searchLoop_cont {pages : Nat → PageResp} {page : Nat} {resl : List SearchResult}
    (n : Nat) (acc : List SearchResult)
    (h : contResults pages (page + 1) = some resl) :
    searchLoop pages n page acc =
      if n ≤ (acc ++ resl).length then Except.ok (acc ++ resl)
      else searchLoop pages n (page + 1) (acc ++ resl) := by
  obtain ⟨r0, rest, v, hp, hres, hu, hv⟩ := contResults_some_elim h
  subst hres
  rw [searchLoop, hp]
  simp [hu, hv]

theorem searchLoop_none_ok {pages : Nat → PageResp} {n page : Nat}
    {acc res : List SearchResult}
    (h : contResults pages (page + 1) = none)
    (hok : searchLoop pages n page acc = Except.ok res) : res = acc := by
  rcases contResults_none_cases h with hp | hp | ⟨r0, rest, hp, hu⟩ | ⟨r0, rest, hp, hu⟩
  · rw [searchLoop, hp] at hok
    simp at hok
    exact hok.symm
  · rw [searchLoop_empty n acc hp] at hok
    cases hok
  · rw [searchLoop, hp] at hok
    simp [hu] at hok
  · rw [searchLoop_sentinel n acc hp hu] at hok
    injection hok with h2
    exact h2.symm

theorem searchLoop_ge (m : Nat) :
    ∀ (pages : Nat → PageResp) (n page : Nat) (acc res : List SearchResult),
      (∀ p, page < p → p ≤ page + m → (contResults pages p).isSome = true) →
      n ≤ acc.length + (suppliedFrom pages page m).length →
      searchLoop pages n page acc = Except.ok res →
      n ≤ res.length := by
  induction m with
  | zero =>
    intro pages n page acc res _ hn hok
    have hn' : n ≤ acc.length := by simpa [suppliedFrom] using hn
    cases hc : contResults pages (page + 1) with
    | none =>
      have hres : res = acc := searchLoop_none_ok hc hok
      exact hres ▸ hn'
    | some resl =>
      rw [searchLoop_cont n acc hc] at hok
      by_cases hle : n ≤ (acc ++ resl).length
      · rw [if_pos hle] at hok
        injection hok with h2
        exact h2 ▸ hle
      · exact absurd (hn'.trans (by simp)) hle
  | succ m ih =>
    intro pages n page acc res hcont hn hok
    have h1 : (contResults pages (page + 1)).isSome = true :=
      hcont (page + 1) (Nat.lt_succ_of_le le_rfl) (by omega)
    obtain ⟨resl, hc⟩ := Option.isSome_iff_exists.mp h1
    rw [searchLoop_cont n acc hc] at hok
    by_cases hle : n ≤ (acc ++ resl).length
    · rw [if_pos hle] at hok
      injection hok with h2
      exact h2 ▸ hle
    · rw [if_neg hle] at hok
      refine ih pages n (page + 1) (acc ++ resl) res ?_ ?_ hok
      · intro p hp1 hp2
        exact hcont p (by omega) (by omega)
      · have hsup : suppliedFrom pages page (m + 1) =
            (contResults pages (page + 1)).getD [] ++ suppliedFrom pages (page + 1) m :=
          rfl
        rw [hsup, hc] at hn
        simp only [List.length_append, Option.getD_some] at hn ⊢
        omega

/-! ## Term-search claims -/

/-- Claim C1: a term search with `maxResults = k` returns a table of at
most `k` rows, and exactly `k` rows whenever the fetched pages supply at
least `k` results before pagination ends. -/
theorem search_term_maxResults (pages : Nat → PageResp) (k : Nat) :
    (∀ t, search_term_df pages k = Except.ok t → t.2.length ≤ k) ∧
    (upstreamAtLeast pages k →
      ∀ t, search_term_df pages k = Except.ok t → t.2.length = k) := by
  constructor
  · intro t ht
    rw [search_term_df] at ht
    cases hs : search_term pages k with
    | error e => rw [hs] at ht; cases ht
    | ok res =>
      rw [hs] at ht
      rw [search_term] at hs
      cases hl : searchLoop pages k 0 [] with
      | error e => rw [hl] at hs; cases hs
      | ok lr =>
        rw [hl] at hs
        injection hs with h2
        obtain ⟨c2, r2⟩ := t
        have hlen := get_df_length ht
        simp only [hlen, ← h2, List.length_take]
        omega
  · rintro ⟨m, hcont, hk⟩ t ht
    rw [search_term_df] at ht
    cases hs : search_term pages k with
    | error e => rw [hs] at ht; cases ht
    | ok res =>
      rw [hs] at ht
      rw [search_term] at hs
      cases hl : searchLoop pages k 0 [] with
      | error e => rw [hl] at hs; cases hs
      | ok lr =>
        rw [hl] at hs
        injection hs with h2
        have hge : k ≤ lr.length := by
          refine searchLoop_ge m pages k 0 [] lr ?_ ?_ hl
          · intro p hp1 hp2
            exact hcont p hp1 (by omega)
          · simpa using hk
        obtain ⟨c2, r2⟩ := t
        have hlen := get_df_length ht
        simp only [hlen, ← h2, List.length_take]
        omega

/-- Claim C2: if the first page's payload is an object whose first
result's `ui` is the sentinel `NONE`, the search stops at once and the
returned table is empty. -/
theorem search_term_sentinel_empty (pages : Nat → PageResp) (n : Nat)
    (r0 : SearchResult) (rest : List SearchResult)
    (hp : pages 1 = PageResp.obj (r0 :: rest))
    (hu : lookupS "ui" r0.scalars = some "NONE") :
    search_term_df pages n = Except.ok ([], []) := by
  have h0 : searchLoop pages n 0 [] = Except.ok [] :=
    searchLoop_sentinel n [] hp hu
  rw [search_term_df, search_term, h0]
  simp [get_df, dfColumns, scalarCols]

/-- Claim C10: a fetched page whose payload is an object with an empty
`results` list makes the loop fail with the out-of-bounds error from the
sentinel check, whatever was accumulated so far, instead of ending
pagination. -/
theorem search_term_empty_results (pages : Nat → PageResp) (n : Nat) :
    (∀ page acc, pages (page + 1) = PageResp.obj [] →
      searchLoop pages n page acc = Except.error Err.indexError) ∧
    (pages 1 = PageResp.obj [] →
      search_term pages n = Except.error Err.indexError) := by
  constructor
  · intro page acc hp
    exact searchLoop_empty n acc hp
  · intro hp
    rw [search_term, searchLoop_empty n [] hp]

/-- Witness for C1: with three upstream results available on page 1 and
`maxResults = 2`, the returned table has exactly 2 rows. -/
theorem search_term_maxResults_witness :
    ([[("ui", Cell.str "C0001"), ("name", Cell.str "A")],
      [("ui", Cell.str "C0002"), ("name", Cell.str "B")]] : List Row).length = 2 := by
  have hcont1 : contResults pagesThree 1 = some [recA, recB, recC] := rfl
  have hloop : searchLoop pagesThree 2 0 [] = Except.ok [recA, recB, recC] := by
    rw [searchLoop_cont 2 [] hcont1]
    simp
  have hst : search_term pagesThree 2 = Except.ok [recA, recB] := by
    rw [search_term, hloop]
    rfl
  have hdf : search_term_df pagesThree 2 = Except.ok
      (["ui", "name"],
       [[("ui", Cell.str "C0001"), ("name", Cell.str "A")],
        [("ui", Cell.str "C0002"), ("name", Cell.str "B")]]) := by
    rw [search_term_df, hst]
    rfl
  exact (search_term_maxResults pagesThree 2).2
    ⟨1, fun p hp1 hp2 => by
        have hp : p = 1 := le_antisymm hp2 hp1
        subst hp
        rfl,
      by decide⟩
    (["ui", "name"],
     [[("ui", Cell.str "C0001"), ("name", Cell.str "A")],
      [("ui", Cell.str "C0002"), ("name", Cell.str "B")]])
    hdf

/-- Witness for C2: a sentinel first page gives the empty table. -/
theorem search_term_sentinel_empty_witness :
    search_term_df pagesSentinel 10 = Except.ok ([], []) :=
  search_term_sentinel_empty pagesSentinel 10 ⟨[("ui", "NONE")], none⟩ [] rfl rfl

/-- Witness for C10: a first page with an empty `results` list makes the
search fail with the out-of-bounds error. -/
theorem search_term_empty_results_witness :
    search_term pagesEmptyResults 5 = Except.error Err.indexError :=
  (search_term_empty_results pagesEmptyResults 5).2 rfl
